import Mathlib

/-!
Shallow embedding of the portview port-to-process resolution engine.

Strings from the OS (contents of /proc files, docker output, link targets)
are modelled as Lean `String`s, with characters standing for bytes; all
inputs the claims quantify over are ASCII, where the two coincide.
Rust machine integers are modelled as `Nat` with explicit bounds where
overflow or byte order matters; the target is little-endian (x86-64 Linux),
so `u32::to_be` is modelled as a byte swap.  Fallible reads are `Option`s;
`f64` fields that the claims only compare to zero are modelled as `ℚ`.
-/

-- ── Rust integer-parsing primitives ─────────────────────────────────

def u16max : Nat := 65535
def u32max : Nat := 4294967295
def u64max : Nat := 18446744073709551615
def i32max : Nat := 2147483647

/-- Value of a digit character for a radix up to 16 (models char::to_digit). -/
def hexDigit? (radix : Nat) (c : Char) : Option Nat :=
  let v :=
    if '0' ≤ c ∧ c ≤ '9' then some (c.toNat - '0'.toNat)
    else if 'a' ≤ c ∧ c ≤ 'f' then some (c.toNat - 'a'.toNat + 10)
    else if 'A' ≤ c ∧ c ≤ 'F' then some (c.toNat - 'A'.toNat + 10)
    else none
  match v with
  | some d => if d < radix then some d else none
  | none => none

/-- Accumulate digits left to right; none if any char is not a digit. -/
def digitsVal? (radix : Nat) (cs : List Char) : Option Nat :=
  cs.foldl (fun acc c => acc.bind fun n => (hexDigit? radix c).map fun d => n * radix + d)
    (some 0)

/-- The digit part of from_str_radix: at least one digit, all valid, and a
value within the type's bound (overflow is an error). -/
def parseCore (radix bound : Nat) (cs : List Char) : Option Nat :=
  if cs.isEmpty then none
  else (digitsVal? radix cs).bind fun n => if n ≤ bound then some n else none

/-- Models `uN::from_str_radix(s, radix)` / `s.parse::<uN>()` for an unsigned
type with maximum `bound`: optional sign, at least one digit, overflow is an
error ("-" admits only magnitude zero). -/
def parseUInt? (radix bound : Nat) (s : String) : Option Nat :=
  match s.data with
  | [] => none
  | c :: rest =>
    if c = '+' then parseCore radix bound rest
    else if c = '-' then
      (parseCore radix bound rest).bind fun n => if n = 0 then some 0 else none
    else parseCore radix bound (c :: rest)

-- ── Rust string primitives ──────────────────────────────────────────

/-- Models `str::split(sep)` for a char separator: keeps empty pieces,
always yields at least one piece. -/
def splitCh (sep : Char) : List Char → List (List Char)
  | [] => [[]]
  | c :: cs =>
    if c = sep then [] :: splitCh sep cs
    else
      match splitCh sep cs with
      | [] => [[c]]
      | h :: t => (c :: h) :: t

/-- Maximal runs of non-whitespace characters (models `str::split_whitespace`). -/
def wsSplitGo (cur : List Char) : List Char → List (List Char)
  | [] => if cur.isEmpty then [] else [cur.reverse]
  | c :: cs =>
    if c.isWhitespace then
      if cur.isEmpty then wsSplitGo [] cs else cur.reverse :: wsSplitGo [] cs
    else wsSplitGo (c :: cur) cs

def splitWS (s : String) : List String :=
  (wsSplitGo [] s.data).map String.mk

def stripTrailingCR (l : List Char) : List Char :=
  if l.getLast? = some '\r' then l.dropLast else l

/-- Models `str::lines`: split on newline, drop a final empty piece, and
strip one trailing carriage return from each line. -/
def rustLines (s : String) : List String :=
  let ps := splitCh '\n' s.data
  let ps := if ps.getLast? = some [] then ps.dropLast else ps
  ps.map fun l => String.mk (stripTrailingCR l)

def trimL (l : List Char) : List Char := l.dropWhile Char.isWhitespace

/-- Models `str::trim`. -/
def rustTrim (s : String) : String :=
  String.mk ((trimL ((trimL s.data).reverse)).reverse)

/-- Models `str::strip_suffix` for a single-char pattern. -/
def stripSuf (c : Char) (s : String) : Option String :=
  if s.data.getLast? = some c then some (String.mk s.data.dropLast) else none

/-- Models `str::starts_with`. -/
def strStarts (s pre : String) : Bool := pre.data.isPrefixOf s.data

/-- Models `str::strip_prefix`. -/
def stripPre (pre : String) (s : String) : Option String :=
  if pre.data.isPrefixOf s.data then some (String.mk (s.data.drop pre.data.length))
  else none

/-- Position of the last occurrence of `c` (models `str::rfind`). -/
def rfindIdx (c : Char) (l : List Char) : Option Nat :=
  match l.reverse.findIdx? (· = c) with
  | none => none
  | some i => some (l.length - 1 - i)

/-- Models `str::split_once(sep)`: split at the first occurrence of `sep`. -/
def splitOnceGo (sep : List Char) (acc : List Char) :
    List Char → Option (List Char × List Char)
  | [] => none
  | c :: cs =>
    if sep.isPrefixOf (c :: cs) then some (acc.reverse, (c :: cs).drop sep.length)
    else splitOnceGo sep (c :: acc) cs

def splitOnce (sep : String) (s : String) : Option (String × String) :=
  match splitOnceGo sep.data [] s.data with
  | none => none
  | some (a, b) => some (String.mk a, String.mk b)

/-- The piece after the last occurrence of `c`, or the whole string
(models `str::rsplit(c).next().unwrap_or(s)`). -/
def lastSegAfter (c : Char) (s : String) : String :=
  String.mk ((splitCh c s.data).getLast?.getD s.data)

-- ── Canonical data model (src/main.rs) ──────────────────────────────

inductive TcpState
  | Listen | Established | TimeWait | CloseWait | FinWait1 | FinWait2
  | SynSent | SynRecv | Closing | LastAck | Close | Unknown
deriving DecidableEq

/-- Linux /proc/net state codes (TcpState::from_hex in src/main.rs). -/
def TcpState.from_hex (s : String) : TcpState :=
  if s = "0A" then .Listen
  else if s = "01" then .Established
  else if s = "06" then .TimeWait
  else if s = "08" then .CloseWait
  else if s = "04" then .FinWait1
  else if s = "05" then .FinWait2
  else if s = "02" then .SynSent
  else if s = "03" then .SynRecv
  else if s = "0B" then .Closing
  else if s = "09" then .LastAck
  else if s = "07" then .Close
  else .Unknown

/-- Windows MIB state codes (TcpState::from_mib in src/main.rs). -/
def TcpState.from_mib (n : Nat) : TcpState :=
  if n = 1 then .Close
  else if n = 2 then .Listen
  else if n = 3 then .SynSent
  else if n = 4 then .SynRecv
  else if n = 5 then .Established
  else if n = 6 then .FinWait1
  else if n = 7 then .FinWait2
  else if n = 8 then .CloseWait
  else if n = 9 then .Closing
  else if n = 10 then .LastAck
  else if n = 11 then .TimeWait
  else if n = 12 then .Close
  else .Unknown

inductive IpAddr
  | v4 (a b c d : Nat)
  | v6 (octets : List Nat)
deriving DecidableEq

def IpAddr.unspecified4 : IpAddr := .v4 0 0 0 0
def IpAddr.unspecified6 : IpAddr := .v6 (List.replicate 16 0)

/-- The canonical output record (struct PortInfo in src/main.rs).
start_time is (seconds, nanoseconds) past the Unix epoch. -/
structure PortInfo where
  port : Nat
  protocol : String
  pid : Nat
  process_name : String
  command : String
  user : String
  state : TcpState
  memory_bytes : Nat
  cpu_seconds : ℚ
  start_time : Option (Nat × Nat)
  children : Nat
  local_addr : IpAddr
deriving DecidableEq

-- ── Rust Vec::dedup_by and sort comparators ─────────────────────────

/-- Walk of `Vec::dedup_by`: `prev` is the last retained element; an element
`y` with `eq y prev = true` is removed, otherwise it is retained and becomes
the new `prev`. -/
def dedupGo (eq : α → α → Bool) (prev : α) : List α → List α
  | [] => []
  | y :: ys => if eq y prev then dedupGo eq prev ys else y :: dedupGo eq y ys

/-- Models `Vec::dedup_by(eq)`: removes elements equal to the previously
retained element. -/
def dedupBy (eq : α → α → Bool) : List α → List α
  | [] => []
  | x :: xs => x :: dedupGo eq x xs

/-- The `(port, protocol, pid)` dedup relation used by all three backends. -/
def samePPP (a b : PortInfo) : Bool :=
  a.port == b.port && a.protocol == b.protocol && a.pid == b.pid

/-- Sort key of the Linux/macOS `sort_by` (port, then protocol
lexicographically; UTF-8 byte order coincides with codepoint order). -/
def key2 (r : PortInfo) : Lex (Nat × List Char) := toLex (r.port, r.protocol.data)

/-- The Linux/macOS comparator as a relation.  `Vec::sort_by` is a stable
sort, so its output is the unique stable sorting of the input; insertion
sort with this relation computes exactly that list. -/
def r2 (a b : PortInfo) : Prop := key2 a ≤ key2 b

instance : DecidableRel r2 :=
  fun a b => inferInstanceAs (Decidable (key2 a ≤ key2 b))

instance : IsTotal PortInfo r2 := ⟨fun a b => le_total (key2 a) (key2 b)⟩

instance : IsTrans PortInfo r2 :=
  ⟨fun _ _ _ hab hbc => le_trans (α := Lex (Nat × List Char)) hab hbc⟩

/-- Sort key of the Windows `sort_by` (port, protocol, then pid). -/
def key3 (r : PortInfo) : Lex (Nat × Lex (List Char × Nat)) :=
  toLex (r.port, toLex (r.protocol.data, r.pid))

/-- The Windows comparator as a relation. -/
def r3 (a b : PortInfo) : Prop := key3 a ≤ key3 b

instance : DecidableRel r3 :=
  fun a b => inferInstanceAs (Decidable (key3 a ≤ key3 b))

instance : IsTotal PortInfo r3 := ⟨fun a b => le_total (key3 a) (key3 b)⟩

instance : IsTrans PortInfo r3 :=
  ⟨fun _ _ _ hab hbc => le_trans (α := Lex (Nat × Lex (List Char × Nat))) hab hbc⟩

-- ── Linux backend (src/linux.rs) ────────────────────────────────────

structure SocketEntry where
  protocol : String
  local_addr : IpAddr
  local_port : Nat
  remote_addr : IpAddr
  remote_port : Nat
  state : TcpState
  inode : Nat
deriving DecidableEq

/-- Byte swap of a 32-bit value: models `u32::to_be` on the little-endian
target. -/
def bswap32 (n : Nat) : Nat :=
  n % 256 * 16777216 + n / 256 % 256 * 65536 + n / 65536 % 256 * 256 + n / 16777216 % 256

/-- Big-endian bytes of a 32-bit value (models `u32::to_be_bytes`). -/
def u32BeBytes (w : Nat) : List Nat :=
  [w / 16777216 % 256, w / 65536 % 256, w / 256 % 256, w % 256]

/-- fn parse_hex_addr_v4: parse the hex digits as u32 (0 on failure), apply
`to_be`, and read the result as big-endian octets (Ipv4Addr::from(u32)). -/
def parse_hex_addr_v4 (hex : String) : IpAddr :=
  let n := (parseUInt? 16 u32max hex).getD 0
  let m := bswap32 n
  .v4 (m / 16777216 % 256) (m / 65536 % 256) (m / 256 % 256) (m % 256)

/-- The 8-hex-digit group `g` of a 32-hex-digit string, parsed as u32
(0 on failure), as in fn parse_hex_addr_v6. -/
def v6GroupWord (hex : String) (g : Nat) : Nat :=
  (parseUInt? 16 u32max (String.mk ((hex.data.drop (8 * g)).take 8))).getD 0

/-- fn parse_hex_addr_v6: four 8-hex-digit groups; each group's big-endian
bytes are written reversed at the group's 4-byte output position. -/
def parse_hex_addr_v6 (hex : String) : IpAddr :=
  if hex.data.length ≠ 32 then .unspecified6
  else .v6 (((List.range 4).map fun g => (u32BeBytes (v6GroupWord hex g)).reverse).flatten)

/-- Characters before the last occurrence of `c` (models `&s[..s.rfind(c)]`;
callers guarantee the occurrence exists). -/
def beforeLast (c : Char) (l : List Char) : List Char :=
  match (l.reverse.dropWhile (· ≠ c)) with
  | [] => l
  | _ :: t => t.reverse

/-- fn parse_addr_port: split on ':', last piece is the hex port, the rest
is the hex address. -/
def parse_addr_port (s : String) (ipv6 : Bool) : IpAddr × Nat :=
  let parts := splitCh ':' s.data
  if parts.length < 2 then
    (if ipv6 then IpAddr.unspecified6 else IpAddr.unspecified4, 0)
  else
    let port := (parseUInt? 16 u16max (String.mk (parts.getLast?.getD []))).getD 0
    let addrHex := String.mk (beforeLast ':' s.data)
    ((if ipv6 then parse_hex_addr_v6 addrHex else parse_hex_addr_v4 addrHex), port)

/-- The state of one /proc/net row: UDP tables ("UDP" protocol prefix) use
the bound/connected interpretation, TCP tables the hex state table. -/
def net_line_state (protocol : String) (f3 : String) : TcpState :=
  if strStarts protocol "UDP" then
    if f3 = "07" then TcpState.Listen
    else if f3 = "01" then TcpState.Established
    else TcpState.Unknown
  else TcpState.from_hex f3

/-- One non-header line of a /proc/net table: at least 10
whitespace-separated fields, hex address:port pairs at fields 1 and 2,
state at field 3, inode at field 9; inode-0 rows are discarded. -/
def parse_net_line (protocol : String) (ipv6 : Bool) (line : String) :
    Option SocketEntry :=
  let fields := splitWS line
  if fields.length < 10 then none
  else
    let lp := parse_addr_port (fields.getD 1 "") ipv6
    let rp := parse_addr_port (fields.getD 2 "") ipv6
    let state := net_line_state protocol (fields.getD 3 "")
    let inode := (parseUInt? 10 u64max (fields.getD 9 "")).getD 0
    if inode = 0 then none
    else some ⟨protocol, lp.1, lp.2, rp.1, rp.2, state, inode⟩

/-- fn parse_proc_net: line-oriented /proc/net table (`none` = read failure,
yielding no entries); skips the header line. -/
def parse_proc_net (content : Option String) (protocol : String) (ipv6 : Bool) :
    List SocketEntry :=
  match content with
  | none => []
  | some c => ((rustLines c).drop 1).filterMap (parse_net_line protocol ipv6)

/-- The Linux environment: contents of the kernel pseudo-files and OS
services the backend reads.  `none` models a failed read. -/
structure LinuxEnv where
  tcp : Option String
  tcp6 : Option String
  udp : Option String
  udp6 : Option String
  procNames : List String
  fdLinks : Nat → Option (List String)
  comm : Nat → Option String
  cmdline : Nat → Option String
  status : Nat → Option String
  statFile : Nat → Option String
  childrenFile : Nat → Option String
  procStat : Option String
  clockTicks : Nat
  username : Nat → String

/-- fn get_all_sockets. -/
def linux_get_all_sockets (env : LinuxEnv) : List SocketEntry :=
  parse_proc_net env.tcp "TCP" false ++ parse_proc_net env.tcp6 "TCP6" true ++
    parse_proc_net env.udp "UDP" false ++ parse_proc_net env.udp6 "UDP6" true

/-- fn build_inode_to_pid_map: scan numeric /proc entries, read each pid's
fd links (skipping the pid when the directory is unreadable), and record
inode → pid for targets of the form socket:[inode]; later inserts win. -/
def build_inode_to_pid_map (env : LinuxEnv) : Nat → Option Nat :=
  env.procNames.foldl
    (fun m name =>
      match parseUInt? 10 u32max name with
      | none => m
      | some pid =>
        match env.fdLinks pid with
        | none => m
        | some links =>
          links.foldl
            (fun m' link =>
              match (stripPre "socket:[" link).bind fun s =>
                  (stripSuf ']' s).bind (parseUInt? 10 u64max) with
              | none => m'
              | some inode => fun i => if i = inode then some pid else m' i)
            m)
    (fun _ => none)

/-- fn get_process_name: trimmed /proc/pid/comm (empty on read failure). -/
def linux_process_name (env : LinuxEnv) (pid : Nat) : String :=
  rustTrim ((env.comm pid).getD "")

/-- fn get_process_cmdline: NUL-separated argument list joined by spaces;
falls back to "[comm]" when empty. -/
def linux_process_cmdline (env : LinuxEnv) (pid : Nat) : String :=
  let raw := (env.cmdline pid).getD ""
  let cmd := String.intercalate " "
    (((splitCh (Char.ofNat 0) raw.data).filter (· ≠ [])).map String.mk)
  if cmd = "" then "[" ++ linux_process_name env pid ++ "]" else cmd

/-- fn parse_proc_status: scan /proc/pid/status for the Uid: and VmRSS:
lines (kB converted to bytes); defaults are zero. -/
def linux_parse_proc_status (env : LinuxEnv) (pid : Nat) : Nat × Nat :=
  (rustLines ((env.status pid).getD "")).foldl
    (fun acc line =>
      match stripPre "Uid:" line with
      | some rest =>
        (((parseUInt? 10 u32max ((splitWS rest).getD 0 "0")).getD 0), acc.2)
      | none =>
        match stripPre "VmRSS:" line with
        | some rest =>
          (acc.1, ((parseUInt? 10 u64max ((splitWS rest).getD 0 "0")).getD 0) * 1024)
        | none => acc)
    (0, 0)

/-- fn get_boot_time: the btime line of /proc/stat, else 0. -/
def linux_boot_time (env : LinuxEnv) : Nat :=
  ((rustLines (env.procStat.getD "")).findSome? fun line =>
    (stripPre "btime " line).map fun rest =>
      (parseUInt? 10 u64max (rustTrim rest)).getD 0).getD 0

/-- fn parse_proc_stat: locate the text after the last ')' of /proc/pid/stat;
utime/stime at post-comm fields 11/12 give CPU seconds, field 19 the start
time in ticks since boot. -/
def linux_parse_proc_stat (env : LinuxEnv) (pid : Nat) (boot clock : Nat) :
    Option (Nat × Nat) × ℚ :=
  match env.statFile pid with
  | none => (none, 0)
  | some stat =>
    match rfindIdx ')' stat.data with
    | none => (none, 0)
    | some pos =>
      let fields := splitWS (String.mk (stat.data.drop (pos + 2)))
      let utime := (fields[11]?.bind (parseUInt? 10 u64max)).getD 0
      let stime := (fields[12]?.bind (parseUInt? 10 u64max)).getD 0
      let cpu : ℚ := if clock > 0 then ((utime + stime : Nat) : ℚ) / (clock : ℚ) else 0
      let start :=
        match fields[19]? with
        | none => none
        | some f =>
          match parseUInt? 10 u64max f with
          | none => none
          | some ticks => if clock = 0 then none else some (boot + ticks / clock, 0)
      (start, cpu)

/-- fn count_children: token count of /proc/pid/task/pid/children. -/
def linux_count_children (env : LinuxEnv) (pid : Nat) : Nat :=
  (splitWS ((env.childrenFile pid).getD "")).length

/-- The skip condition of the listening filter in the Linux
get_port_infos loop: with the filter on, a non-Listen socket is skipped
unless its protocol starts with "UDP". -/
def linuxFilterSkip (filter : Bool) (sock : SocketEntry) : Bool :=
  filter && !(sock.state == TcpState.Listen) && !(strStarts sock.protocol "UDP")

/-- The PortInfo pushed for one socket and its resolved pid in the Linux
get_port_infos loop ("6" stripped from the protocol, detail fields read from
the per-pid /proc files). -/
def linux_record (env : LinuxEnv) (boot clock : Nat) (sock : SocketEntry) (pid : Nat) :
    PortInfo :=
  let st := linux_parse_proc_status env pid
  let ts := linux_parse_proc_stat env pid boot clock
  { port := sock.local_port
    protocol := (stripSuf '6' sock.protocol).getD sock.protocol
    pid := pid
    process_name := linux_process_name env pid
    command := linux_process_cmdline env pid
    user := env.username st.1
    state := sock.state
    memory_bytes := st.2
    cpu_seconds := ts.2
    start_time := ts.1
    children := linux_count_children env pid
    local_addr := sock.local_addr }

/-- The record-building loop of the Linux get_port_infos: skip filtered
sockets, zero ports, and sockets whose inode has no pid mapping. -/
def linux_assemble (env : LinuxEnv) (filter_listening : Bool) : List PortInfo :=
  (linux_get_all_sockets env).filterMap fun sock =>
    if linuxFilterSkip filter_listening sock then none
    else if sock.local_port = 0 then none
    else
      match build_inode_to_pid_map env sock.inode with
      | none => none
      | some pid =>
        some (linux_record env (linux_boot_time env) env.clockTicks sock pid)

/-- pub fn get_port_infos (src/linux.rs): assemble, sort by (port, protocol),
and dedup adjacent (port, protocol, pid) duplicates. -/
def linux_get_port_infos (env : LinuxEnv) (filter_listening : Bool) : List PortInfo :=
  dedupBy samePPP (List.insertionSort r2 (linux_assemble env filter_listening))

-- ── Windows backend (src/windows.rs) ────────────────────────────────

/-- A row of the extended TCP/UDP tables after decoding (struct RawSocket):
the owning pid is embedded directly. -/
structure WinRawSocket where
  protocol : String
  local_addr : IpAddr
  local_port : Nat
  state : TcpState
  pid : Nat
deriving DecidableEq

/-- const FILETIME_UNIX_OFFSET: 1601-01-01 to 1970-01-01 in 100ns units. -/
def FILETIME_UNIX_OFFSET : Nat := 116444736000000000

/-- fn filetime_to_u64: combine the two 32-bit FILETIME halves. -/
def filetime_to_u64 (ft_low ft_high : Nat) : Nat := (ft_high <<< 32) ||| ft_low

/-- fn filetime_to_system_time: ticks before the Unix epoch give None; at or
after it, the (seconds, nanoseconds) offset past UNIX_EPOCH. -/
def filetime_to_system_time (ft_low ft_high : Nat) : Option (Nat × Nat) :=
  let ticks := filetime_to_u64 ft_low ft_high
  if ticks < FILETIME_UNIX_OFFSET then none
  else
    let unix100ns := ticks - FILETIME_UNIX_OFFSET
    some (unix100ns / 10000000, unix100ns % 10000000 * 100)

/-- Result of OpenProcess with the two rights combinations: full
(query + VM read), limited (query only), or no access at all. -/
inductive WinAccess
  | full
  | limited
  | denied

/-- The Windows environment: decoded socket-table rows, the hash-map
iteration order over owning pids (arbitrary), and the native per-process
query results.  `times` gives the creation/kernel/user FILETIMEs as
(low, high) pairs; `snapshotPpids` lists the parent pid of every process
in the toolhelp snapshot. -/
structure WinEnv where
  sockets : List WinRawSocket
  pidIter : List Nat
  access : Nat → WinAccess
  imagePath : Nat → Option String
  memCounters : Nat → Option Nat
  times : Nat → Option ((Nat × Nat) × (Nat × Nat) × (Nat × Nat))
  username : Nat → String
  snapshotPpids : List Nat

/-- fn get_process_name_and_path: the image path and its last
backslash-separated segment; empty strings when the query fails. -/
def win_name_and_path (pathOpt : Option String) : String × String :=
  match pathOpt with
  | none => ("", "")
  | some path => (lastSegAfter '\\' path, path)

/-- fn get_process_times: creation FILETIME to start time, kernel+user
ticks to CPU seconds; (None, 0) when the query fails. -/
def win_process_times (t : Option ((Nat × Nat) × (Nat × Nat) × (Nat × Nat))) :
    Option (Nat × Nat) × ℚ :=
  match t with
  | none => (none, 0)
  | some (creation, kernel, user) =>
    let start := filetime_to_system_time creation.1 creation.2
    let kt := filetime_to_u64 kernel.1 kernel.2
    let ut := filetime_to_u64 user.1 user.2
    (start, ((kt + ut : Nat) : ℚ) / 10000000)

/-- fn build_child_count_map followed by the per-pid lookup: entries whose
parent pid is nonzero are tallied; absent keys give 0. -/
def win_child_count (env : WinEnv) (pid : Nat) : Nat :=
  (env.snapshotPpids.filter fun pp => pp ≠ 0 && pp = pid).length

/-- The skip condition of the listening filter in the Windows
get_port_infos loop. -/
def winFilterSkip (filter : Bool) (sock : WinRawSocket) : Bool :=
  filter && !(sock.state == TcpState.Listen) && !(sock.protocol == "UDP")

/-- Records pushed for one pid and its sockets, following the three access
paths of the Windows get_port_infos loop. -/
def win_pid_records (env : WinEnv) (pid : Nat) (socks : List WinRawSocket) :
    List PortInfo :=
  match env.access pid with
  | .denied =>
    socks.map fun s =>
      { port := s.local_port, protocol := s.protocol, pid := pid
        process_name := "", command := "", user := ""
        state := s.state, memory_bytes := 0, cpu_seconds := 0
        start_time := none, children := win_child_count env pid
        local_addr := s.local_addr }
  | .limited =>
    let np := win_name_and_path (env.imagePath pid)
    let ts := win_process_times (env.times pid)
    socks.map fun s =>
      { port := s.local_port, protocol := s.protocol, pid := pid
        process_name := np.1
        command := if np.2 = "" then "[" ++ np.1 ++ "]" else np.2
        user := env.username pid
        state := s.state, memory_bytes := 0, cpu_seconds := ts.2
        start_time := ts.1, children := win_child_count env pid
        local_addr := s.local_addr }
  | .full =>
    let np := win_name_and_path (env.imagePath pid)
    let ts := win_process_times (env.times pid)
    socks.map fun s =>
      { port := s.local_port, protocol := s.protocol, pid := pid
        process_name := np.1
        command := if np.2 = "" then "[" ++ np.1 ++ "]" else np.2
        user := env.username pid
        state := s.state, memory_bytes := (env.memCounters pid).getD 0
        cpu_seconds := ts.2, start_time := ts.1
        children := win_child_count env pid
        local_addr := s.local_addr }

/-- pub fn get_port_infos (src/windows.rs): group by pid (iteration order
arbitrary), build records per access level, drop records with an empty
process name, sort by (port, protocol, pid), dedup adjacent triples. -/
def win_get_port_infos (env : WinEnv) (filter_listening : Bool) : List PortInfo :=
  let filtered := env.sockets.filter fun s =>
    !(s.local_port == 0) && !(winFilterSkip filter_listening s)
  let infos := (env.pidIter.filter (· ≠ 0)).flatMap fun pid =>
    win_pid_records env pid (filtered.filter fun s => s.pid == pid)
  let retained := infos.filter fun i => !(i.process_name == "")
  dedupBy samePPP (List.insertionSort r3 retained)

-- ── macOS backend (src/macos.rs) ────────────────────────────────────

/-- A decoded per-fd socket of the macOS backend, after the family and
union-kind checks (struct SocketHit fields before the port/filter checks). -/
structure MacHit where
  protocol : String
  state : TcpState
  local_port : Nat
  local_addr : IpAddr
deriving DecidableEq

/-- The all-in-one proc_pidinfo task structure, reduced to the fields the
backend reads. -/
structure MacTask where
  comm : String
  uid : Nat
  rss : Nat
  cpuUserNs : Nat
  cpuSystemNs : Nat
  startSec : Nat

/-- The macOS environment: the enumerated pids, the decoded socket
candidates per pid (fd order), and the native query results. -/
structure MacEnv where
  pids : List Nat
  hits : Nat → List MacHit
  task : Nat → Option MacTask
  path : Nat → String
  childCount : Nat → Nat
  username : Nat → String

/-- fn process_name_from_path: last slash-separated segment. -/
def mac_name_from_path (path : String) : String :=
  if path = "" then "" else lastSegAfter '/' path

/-- The skip condition of the listening filter in the macOS
get_port_infos loop. -/
def macFilterSkip (filter : Bool) (h : MacHit) : Bool :=
  filter && !(h.state == TcpState.Listen) && !(h.protocol == "UDP")

/-- Records emitted for one pid in the macOS get_port_infos loop: the hits
passing the port and filter checks, each paired with the once-per-pid
process details. -/
def mac_pid_records (env : MacEnv) (filter_listening : Bool) (pid : Nat) :
    List PortInfo :=
  let hits := (env.hits pid).filter fun h =>
    !(h.local_port == 0) && !(macFilterSkip filter_listening h)
  if hits.isEmpty then []
  else
    let task := env.task pid
    let path := env.path pid
    let name := if path ≠ "" then mac_name_from_path path
      else (task.map MacTask.comm).getD ""
    let command := if path ≠ "" then path else "[" ++ name ++ "]"
    let uid := (task.map MacTask.uid).getD 0
    let rss := (task.map MacTask.rss).getD 0
    let cpuNs : Nat := (task.map fun t => t.cpuUserNs + t.cpuSystemNs).getD 0
    let cpu : ℚ := (cpuNs : ℚ) / 1000000000
    let start := task.bind fun t =>
      if t.startSec > 0 then some (t.startSec, 0) else none
    let children := env.childCount pid
    let user := env.username uid
    hits.map fun h =>
      { port := h.local_port, protocol := h.protocol, pid := pid
        process_name := name, command := command, user := user
        state := h.state, memory_bytes := rss, cpu_seconds := cpu
        start_time := start, children := children
        local_addr := h.local_addr }

/-- pub fn get_port_infos (src/macos.rs): per pid, keep hits passing the
port and filter checks, fetch process details once, emit one record per
hit; sort by (port, protocol) and dedup adjacent triples. -/
def mac_get_port_infos (env : MacEnv) (filter_listening : Bool) : List PortInfo :=
  dedupBy samePPP
    (List.insertionSort r2 (env.pids.flatMap (mac_pid_records env filter_listening)))

-- ── Docker port parsing (src/docker.rs) ─────────────────────────────

/-- fn parse_first_port: text before the first '-', trimmed, as u16. -/
def parse_first_port (raw : String) : Option Nat :=
  parseUInt? 10 u16max (rustTrim (String.mk ((splitCh '-' raw.data).getD 0 [])))

/-- fn parse_host_port: text after the last ':', then the first port. -/
def parse_host_port (host_side : String) : Option Nat :=
  parse_first_port (rustTrim (lastSegAfter ':' host_side))

/-- fn parse_port_segment: "addr:hostports->containerports/proto"; segments
without "->" yield None; the protocol is upper-cased. -/
def parse_port_segment (segment : String) : Option (Nat × Nat × String) :=
  (splitOnce "->" (rustTrim segment)).bind fun hc =>
    (parse_host_port (rustTrim hc.1)).bind fun host_port =>
      (splitOnce "/" (rustTrim hc.2)).bind fun cp =>
        (parse_first_port (rustTrim cp.1)).map fun container_port =>
          (host_port, container_port, String.mk ((rustTrim cp.2).data.map Char.toUpper))

-- ── Process termination (src/main.rs, kill_process) ─────────────────

/-- Native calls a kill_process run may issue, in order. -/
inductive NativeCall
  | killCall (pid : Nat) (signal : Int)
  | openProcessCall (pid : Nat)
  | terminateCall (handle : Nat)
  | closeHandleCall (handle : Nat)
deriving DecidableEq

def SIGTERM : Int := 15
def SIGKILL : Int := 9

/-- The Unix environment of kill_process: the libc::kill return value and
the pending OS error text. -/
structure UnixKillEnv where
  killRet : Nat → Int → Int
  osError : String

/-- cfg(unix) pub fn kill_process: refuse pid 0 and pids above i32::MAX
before any native call; otherwise send SIGKILL/SIGTERM and report the
signal name on success.  The second component lists the native calls
issued. -/
def kill_process_unix (env : UnixKillEnv) (pid : Nat) (force : Bool) :
    Except String String × List NativeCall :=
  if pid = 0 then
    (.error "Refusing to signal PID 0 (would target entire process group)", [])
  else if pid > i32max then
    (.error ("PID " ++ toString pid ++ " exceeds safe range"), [])
  else
    let signal := if force then SIGKILL else SIGTERM
    let signalName := if force then "SIGKILL" else "SIGTERM"
    let r := env.killRet pid signal
    ((if r = 0 then .ok signalName else .error env.osError), [.killCall pid signal])

/-- The Windows environment of kill_process: OpenProcess yields a handle or
fails, TerminateProcess succeeds or fails per handle. -/
structure WinTermEnv where
  openProc : Nat → Option Nat
  terminateRet : Nat → Bool
  osError : String

/-- cfg(windows) pub fn kill_process: refuse pid 0 before any native call;
otherwise open, terminate (always forceful), close the handle on every
path, and report "TerminateProcess" on success. -/
def kill_process_win (env : WinTermEnv) (pid : Nat) (_force : Bool) :
    Except String String × List NativeCall :=
  if pid = 0 then (.error "Refusing to terminate PID 0", [])
  else
    match env.openProc pid with
    | none => (.error env.osError, [.openProcessCall pid])
    | some h =>
      ((if env.terminateRet h then .ok "TerminateProcess" else .error env.osError),
        [.openProcessCall pid, .terminateCall h, .closeHandleCall h])

-- ── Derived predicates the claims are stated with ───────────────────

/-- Equality of the (port, protocol, pid) triple. -/
def tripleEq (a b : PortInfo) : Prop :=
  a.port = b.port ∧ a.protocol = b.protocol ∧ a.pid = b.pid

instance (a b : PortInfo) : Decidable (tripleEq a b) :=
  inferInstanceAs (Decidable (_ ∧ _ ∧ _))

/-- The consecutive-entry ordering condition of the order invariant:
strictly smaller port, or equal port and lexicographically no larger
protocol string. -/
def keyLeC (a b : PortInfo) : Prop :=
  a.port < b.port ∨ (a.port = b.port ∧ a.protocol.data ≤ b.protocol.data)

-- ── Concrete environments used as inputs for witnesses ──────────────

/-- A /proc/net/tcp image with three port-80 listeners on inodes
100, 101, 102 (distinct local addresses). -/
def tcp3 : String :=
  "  sl  local_address rem_address   st tx_queue rx_queue tr tm->when retrnsmt   uid  timeout inode\n" ++
  "   0: 0100007F:0050 00000000:0000 0A 00000000:00000000 00:00000000 00000000  1000 0 100\n" ++
  "   1: 0101A8C0:0050 00000000:0000 0A 00000000:00000000 00:00000000 00000000  1000 0 101\n" ++
  "   2: 0201A8C0:0050 00000000:0000 0A 00000000:00000000 00:00000000 00000000  1000 0 102\n"

/-- Environment for the dedup counterexample: inodes 100 and 102 belong to
pid 17, inode 101 to pid 23, so the assembled order at equal (port,
protocol) is 17, 23, 17. -/
def c1CexEnv : LinuxEnv :=
  { tcp := some tcp3, tcp6 := none, udp := none, udp6 := none
    procNames := ["17", "23"]
    fdLinks := fun p =>
      if p = 17 then some ["socket:[100]", "socket:[102]"]
      else if p = 23 then some ["socket:[101]"]
      else none
    comm := fun _ => none, cmdline := fun _ => none, status := fun _ => none
    statFile := fun _ => none, childrenFile := fun _ => none
    procStat := none, clockTicks := 0, username := fun _ => "" }

/-- A /proc/net/tcp image with a single port-80 listener on inode 100. -/
def tcp1 : String :=
  "  sl  local_address rem_address   st tx_queue rx_queue tr tm->when retrnsmt   uid  timeout inode\n" ++
  "   0: 0100007F:0050 00000000:0000 0A 00000000:00000000 00:00000000 00000000  1000 0 100\n"

/-- Environment where the owning process's fd links are unreadable: the
socket's inode never reaches the inode-to-pid map. -/
def c2DropEnv : LinuxEnv :=
  { tcp := some tcp1, tcp6 := none, udp := none, udp6 := none
    procNames := ["42"]
    fdLinks := fun _ => none
    comm := fun _ => none, cmdline := fun _ => none, status := fun _ => none
    statFile := fun _ => none, childrenFile := fun _ => none
    procStat := none, clockTicks := 0, username := fun _ => "" }

/-- Environment where the fd links are readable but every per-pid detail
file is unreadable. -/
def c2KeepEnv : LinuxEnv :=
  { tcp := some tcp1, tcp6 := none, udp := none, udp6 := none
    procNames := ["42"]
    fdLinks := fun p => if p = 42 then some ["socket:[100]"] else none
    comm := fun _ => none, cmdline := fun _ => none, status := fun _ => none
    statFile := fun _ => none, childrenFile := fun _ => none
    procStat := none, clockTicks := 0, username := fun _ => "root" }

/-- The socket parsed from tcp1: 127.0.0.1:80, Listen, inode 100. -/
def c2Sock : SocketEntry :=
  { protocol := "TCP", local_addr := .v4 127 0 0 1, local_port := 80
    remote_addr := .v4 0 0 0 0, remote_port := 0
    state := .Listen, inode := 100 }

/-- A concrete Windows environment: one TCP listener owned by pid 5 with
full process access. -/
def c3WinEnv : WinEnv :=
  { sockets := [{ protocol := "TCP", local_addr := .v4 0 0 0 0, local_port := 443
                  state := .Listen, pid := 5 }]
    pidIter := [5]
    access := fun _ => .full
    imagePath := fun p => if p = 5 then some "C:\\x\\srv.exe" else none
    memCounters := fun _ => none
    times := fun _ => none
    username := fun _ => "w"
    snapshotPpids := [] }

/-- The record c3WinEnv produces. -/
def c3WinRec : PortInfo :=
  { port := 443, protocol := "TCP", pid := 5, process_name := "srv.exe"
    command := "C:\\x\\srv.exe", user := "w", state := .Listen
    memory_bytes := 0, cpu_seconds := 0, start_time := none, children := 0
    local_addr := .v4 0 0 0 0 }

/-- A concrete macOS environment: one TCP listener on pid 9 whose task
query fails. -/
def c3MacEnv : MacEnv :=
  { pids := [9]
    hits := fun p =>
      if p = 9 then [{ protocol := "TCP", state := .Listen, local_port := 8080
                       local_addr := .v4 0 0 0 0 }] else []
    task := fun _ => none
    path := fun _ => ""
    childCount := fun _ => 0
    username := fun _ => "m" }

/-- The record c3MacEnv produces. -/
def c3MacRec : PortInfo :=
  { port := 8080, protocol := "TCP", pid := 9, process_name := "", command := "[]"
    user := "m", state := .Listen, memory_bytes := 0
    cpu_seconds := (0 : ℚ) / 1000000000, start_time := none, children := 0
    local_addr := .v4 0 0 0 0 }

/-- The record c2KeepEnv produces: all detail fields blank or default. -/
def c2KeepRec : PortInfo :=
  { port := 80, protocol := "TCP", pid := 42, process_name := "", command := "[]"
    user := "root", state := .Listen, memory_bytes := 0, cpu_seconds := 0
    start_time := none, children := 0, local_addr := .v4 127 0 0 1 }

/-- A Unix kill environment whose native kill always succeeds. -/
def ukEnv : UnixKillEnv := { killRet := fun _ _ => 0, osError := "os error" }

/-- A Windows termination environment whose native calls always succeed. -/
def wtEnv : WinTermEnv :=
  { openProc := fun p => some (p + 100), terminateRet := fun _ => true
    osError := "os error" }

/-- A Linux environment with one TCP listener on pid 7 whose detail files
are readable only as far as the fd links. -/
def c3LinEnv : LinuxEnv :=
  { tcp := some tcp1, tcp6 := none, udp := none, udp6 := none
    procNames := ["7"]
    fdLinks := fun p => if p = 7 then some ["socket:[100]"] else none
    comm := fun _ => none, cmdline := fun _ => none, status := fun _ => none
    statFile := fun _ => none, childrenFile := fun _ => none
    procStat := none, clockTicks := 0, username := fun _ => "u" }

/-- The record c3LinEnv produces. -/
def c3LinRec : PortInfo :=
  { port := 80, protocol := "TCP", pid := 7, process_name := "", command := "[]"
    user := "u", state := .Listen, memory_bytes := 0, cpu_seconds := 0
    start_time := none, children := 0, local_addr := .v4 127 0 0 1 }

/-- A bound UDP socket in a non-Listen state (Linux form). -/
def udpSockEx : SocketEntry :=
  { protocol := "UDP", local_addr := .v4 0 0 0 0, local_port := 53
    remote_addr := .v4 0 0 0 0, remote_port := 0, state := .Unknown, inode := 7 }

/-- A bound UDP socket in a non-Listen state (Windows form). -/
def udpWinSockEx : WinRawSocket :=
  { protocol := "UDP", local_addr := .v4 0 0 0 0, local_port := 53
    state := .Unknown, pid := 3 }

/-- A bound UDP socket in a non-Listen state (macOS form). -/
def udpMacHitEx : MacHit :=
  { protocol := "UDP", state := .Unknown, local_port := 53
    local_addr := .v4 0 0 0 0 }

-- ── General lemmas about the dedup walk and the pipeline ────────────

theorem dedupGo_sublist (eq : α → α → Bool) (prev : α) (l : List α) :
    (dedupGo eq prev l).Sublist l := by
  induction l generalizing prev with
  | nil => simp [dedupGo]
  | cons y ys ih =>
    rw [dedupGo]
    split
    · exact (ih prev).cons y
    · exact (ih y).cons₂ y

theorem dedupBy_sublist (eq : α → α → Bool) (l : List α) :
    (dedupBy eq l).Sublist l := by
  cases l with
  | nil => simp [dedupBy]
  | cons x xs => exact (dedupGo_sublist eq x xs).cons₂ x

theorem dedupGo_chain (eq : α → α → Bool) (prev : α) (l : List α) :
    List.Chain (fun a b => eq b a = false) prev (dedupGo eq prev l) := by
  induction l generalizing prev with
  | nil => exact List.Chain.nil
  | cons y ys ih =>
    rw [dedupGo]
    split
    · exact ih prev
    · next h => exact List.Chain.cons (by simpa using h) (ih y)

theorem dedupBy_chain' (eq : α → α → Bool) (l : List α) :
    List.Chain' (fun a b => eq b a = false) (dedupBy eq l) := by
  cases l with
  | nil => simp [dedupBy]
  | cons x xs => exact dedupGo_chain eq x xs

theorem dedupGo_mem_witness (eq : α → α → Bool) (prev : α) (l : List α) (x : α)
    (hx : x ∈ l) :
    (∃ y ∈ dedupGo eq prev l, eq x y = true ∨ y = x) ∨ eq x prev = true := by
  induction l generalizing prev with
  | nil => cases hx
  | cons y ys ih =>
    rw [dedupGo]
    rcases List.mem_cons.mp hx with rfl | hmem
    · by_cases h : eq x prev = true
      · exact Or.inr h
      · left
        rw [if_neg h]
        exact ⟨x, List.mem_cons_self x _, Or.inr rfl⟩
    · split
      · exact ih prev hmem
      · rcases ih y hmem with ⟨z, hz, hrel⟩ | hxy
        · exact Or.inl ⟨z, List.mem_cons_of_mem y hz, hrel⟩
        · exact Or.inl ⟨y, List.mem_cons_self y _, Or.inl hxy⟩

theorem dedupBy_mem_witness (eq : α → α → Bool) (l : List α) (x : α) (hx : x ∈ l) :
    ∃ y ∈ dedupBy eq l, eq x y = true ∨ y = x := by
  cases l with
  | nil => cases hx
  | cons h t =>
    rw [dedupBy]
    rcases List.mem_cons.mp hx with rfl | hmem
    · exact ⟨x, List.mem_cons_self x _, Or.inr rfl⟩
    · rcases dedupGo_mem_witness eq h t x hmem with ⟨z, hz, hrel⟩ | hxh
      · exact ⟨z, List.mem_cons_of_mem h hz, hrel⟩
      · exact ⟨h, List.mem_cons_self h _, Or.inl hxh⟩

theorem pipeline_pairwise (r : PortInfo → PortInfo → Prop) [DecidableRel r]
    [IsTotal PortInfo r] [IsTrans PortInfo r] (l : List PortInfo) :
    List.Pairwise r (dedupBy samePPP (List.insertionSort r l)) :=
  List.Pairwise.sublist (dedupBy_sublist samePPP _) (List.sorted_insertionSort r l)

theorem mem_of_mem_pipeline {eq : PortInfo → PortInfo → Bool}
    {r : PortInfo → PortInfo → Prop} [DecidableRel r] {l : List PortInfo}
    {x : PortInfo} (hx : x ∈ dedupBy eq (List.insertionSort r l)) : x ∈ l :=
  (List.perm_insertionSort r l).mem_iff.mp (List.Sublist.mem hx (dedupBy_sublist eq _))

theorem mem_pipeline_witness {eq : PortInfo → PortInfo → Bool}
    {r : PortInfo → PortInfo → Prop} [DecidableRel r] {l : List PortInfo}
    {x : PortInfo} (hx : x ∈ l) :
    ∃ y ∈ dedupBy eq (List.insertionSort r l), eq x y = true ∨ y = x :=
  dedupBy_mem_witness eq _ x ((List.perm_insertionSort r l).mem_iff.mpr hx)

theorem samePPP_iff {a b : PortInfo} : samePPP a b = true ↔ tripleEq a b := by
  simp [samePPP, tripleEq, and_assoc]

theorem not_tripleEq_of_samePPP_false {a b : PortInfo} (h : samePPP b a = false) :
    ¬ tripleEq a b := by
  intro ht
  have : samePPP b a = true := samePPP_iff.mpr ⟨ht.1.symm, ht.2.1.symm, ht.2.2.symm⟩
  simp [this] at h

theorem key3_eq_iff {a b : PortInfo} : key3 a = key3 b ↔ tripleEq a b := by
  unfold key3 tripleEq
  rw [toLex_inj, Prod.mk.injEq, toLex_inj, Prod.mk.injEq]
  constructor
  · rintro ⟨h1, h2, h3⟩
    exact ⟨h1, String.ext h2, h3⟩
  · rintro ⟨h1, h2, h3⟩
    exact ⟨h1, by rw [h2], h3⟩

theorem r2_imp_keyLeC {a b : PortInfo} (h : r2 a b) : keyLeC a b := by
  unfold r2 key2 at h
  rw [Prod.Lex.le_iff] at h
  simpa [keyLeC] using h

theorem r3_imp_keyLeC {a b : PortInfo} (h : r3 a b) : keyLeC a b := by
  unfold r3 key3 at h
  rw [Prod.Lex.le_iff] at h
  rcases h with h | ⟨h1, h2⟩
  · exact Or.inl h
  · refine Or.inr ⟨h1, ?_⟩
    rw [Prod.Lex.le_iff] at h2
    rcases h2 with h2 | ⟨h2, _⟩
    · exact le_of_lt h2
    · exact le_of_eq h2

theorem pairwise_ne_of_sorted_chain {α : Type u} [LinearOrder α] :
    ∀ l : List α, List.Pairwise (· ≤ ·) l → List.Chain' (· ≠ ·) l →
      List.Pairwise (· ≠ ·) l
  | [], _, _ => List.Pairwise.nil
  | [_], _, _ => by simp
  | a :: b :: t, hp, hc => by
    rw [List.pairwise_cons] at hp
    obtain ⟨ha, hp'⟩ := hp
    obtain ⟨hab, hc'⟩ := List.chain'_cons.mp hc
    rw [List.pairwise_cons]
    refine ⟨?_, pairwise_ne_of_sorted_chain (b :: t) hp' hc'⟩
    intro c hcmem
    rcases List.mem_cons.mp hcmem with rfl | hmem
    · exact hab
    · have h1 : a < b := lt_of_le_of_ne (ha b (List.mem_cons_self b t)) hab
      have h2 : b ≤ c := (List.pairwise_cons.mp hp').1 c hmem
      exact ne_of_lt (lt_of_lt_of_le h1 h2)

-- ── Structure of assembled records per backend ──────────────────────

theorem parse_net_line_protocol {p : String} {v6 : Bool} {line : String}
    {e : SocketEntry} (h : parse_net_line p v6 line = some e) : e.protocol = p := by
  unfold parse_net_line at h
  by_cases h1 : (splitWS line).length < 10
  · rw [if_pos h1] at h
    exact Option.noConfusion h
  · rw [if_neg h1] at h
    dsimp only at h
    by_cases h2 :
        (parseUInt? 10 u64max ((splitWS line).getD 9 "")).getD 0 = 0
    · rw [if_pos h2] at h
      exact Option.noConfusion h
    · rw [if_neg h2] at h
      injection h with h'
      rw [← h']

theorem parse_proc_net_protocol {c : Option String} {p : String} {v6 : Bool}
    {e : SocketEntry} (he : e ∈ parse_proc_net c p v6) : e.protocol = p := by
  cases c with
  | none => simp [parse_proc_net] at he
  | some s =>
    obtain ⟨line, -, hf⟩ := List.mem_filterMap.mp he
    exact parse_net_line_protocol hf

theorem linux_sockets_protocol {env : LinuxEnv} {sock : SocketEntry}
    (h : sock ∈ linux_get_all_sockets env) :
    sock.protocol = "TCP" ∨ sock.protocol = "TCP6" ∨ sock.protocol = "UDP" ∨
      sock.protocol = "UDP6" := by
  rw [linux_get_all_sockets] at h
  simp only [List.mem_append] at h
  rcases h with ((h | h) | h) | h
  · exact Or.inl (parse_proc_net_protocol h)
  · exact Or.inr (Or.inl (parse_proc_net_protocol h))
  · exact Or.inr (Or.inr (Or.inl (parse_proc_net_protocol h)))
  · exact Or.inr (Or.inr (Or.inr (parse_proc_net_protocol h)))

theorem linux_assemble_spec {env : LinuxEnv} {b : Bool} {r : PortInfo}
    (hr : r ∈ linux_assemble env b) :
    ∃ sock pid, sock ∈ linux_get_all_sockets env ∧
      linuxFilterSkip b sock = false ∧ sock.local_port ≠ 0 ∧
      build_inode_to_pid_map env sock.inode = some pid ∧
      r = linux_record env (linux_boot_time env) env.clockTicks sock pid := by
  obtain ⟨sock, hmem, hf⟩ := List.mem_filterMap.mp hr
  refine ⟨sock, ?_⟩
  by_cases h1 : linuxFilterSkip b sock = true
  · rw [if_pos h1] at hf
    exact Option.noConfusion hf
  · rw [if_neg h1] at hf
    by_cases h2 : sock.local_port = 0
    · rw [if_pos h2] at hf
      exact Option.noConfusion hf
    · rw [if_neg h2] at hf
      cases hm : build_inode_to_pid_map env sock.inode with
      | none =>
        rw [hm] at hf
        exact Option.noConfusion hf
      | some pid =>
        rw [hm] at hf
        injection hf with h
        exact ⟨pid, hmem, by simpa using h1, h2, rfl, h.symm⟩

theorem win_pid_records_spec {env : WinEnv} {pid : Nat} {socks : List WinRawSocket}
    {r : PortInfo} (hr : r ∈ win_pid_records env pid socks) :
    ∃ s ∈ socks, r.protocol = s.protocol ∧ r.state = s.state ∧ r.pid = pid := by
  simp only [win_pid_records] at hr
  split at hr <;>
  · obtain ⟨s, hs, rfl⟩ := List.mem_map.mp hr
    exact ⟨s, hs, rfl, rfl, rfl⟩

theorem win_get_port_infos_spec {env : WinEnv} {b : Bool} {r : PortInfo}
    (hr : r ∈ win_get_port_infos env b) :
    ∃ s ∈ env.sockets, s.local_port ≠ 0 ∧ winFilterSkip b s = false ∧
      r.protocol = s.protocol ∧ r.state = s.state := by
  rw [win_get_port_infos] at hr
  have hr1 := mem_of_mem_pipeline hr
  have hr2 := List.mem_of_mem_filter hr1
  obtain ⟨pid, -, hrec⟩ := List.mem_flatMap.mp hr2
  obtain ⟨s, hs, hproto, hstate, -⟩ := win_pid_records_spec hrec
  have hs1 := List.mem_of_mem_filter hs
  have hcond := List.of_mem_filter hs1
  simp only [Bool.and_eq_true, Bool.not_eq_true'] at hcond
  exact ⟨s, List.mem_of_mem_filter hs1, by simpa using hcond.1, hcond.2, hproto, hstate⟩

theorem mac_pid_records_spec {env : MacEnv} {b : Bool} {pid : Nat} {r : PortInfo}
    (hr : r ∈ mac_pid_records env b pid) :
    ∃ h, h ∈ env.hits pid ∧ h.local_port ≠ 0 ∧ macFilterSkip b h = false ∧
      r.protocol = h.protocol ∧ r.state = h.state ∧ r.pid = pid := by
  simp only [mac_pid_records] at hr
  by_cases hempty :
      (List.filter (fun h => !(h.local_port == 0) && !(macFilterSkip b h))
        (env.hits pid)).isEmpty = true
  · rw [if_pos hempty] at hr
    exact absurd hr (by simp)
  · rw [if_neg hempty] at hr
    obtain ⟨h, hh, rfl⟩ := List.mem_map.mp hr
    have hcond := List.of_mem_filter hh
    simp only [Bool.and_eq_true, Bool.not_eq_true'] at hcond
    exact ⟨h, List.mem_of_mem_filter hh, by simpa using hcond.1, hcond.2, rfl, rfl, rfl⟩

theorem mac_get_port_infos_spec {env : MacEnv} {b : Bool} {r : PortInfo}
    (hr : r ∈ mac_get_port_infos env b) :
    ∃ pid h, h ∈ env.hits pid ∧ h.local_port ≠ 0 ∧ macFilterSkip b h = false ∧
      r.protocol = h.protocol ∧ r.state = h.state := by
  rw [mac_get_port_infos] at hr
  have hr1 := mem_of_mem_pipeline hr
  obtain ⟨pid, -, hrec⟩ := List.mem_flatMap.mp hr1
  obtain ⟨h, hh, hp, hf, hproto, hstate, -⟩ := mac_pid_records_spec hrec
  exact ⟨pid, h, hh, hp, hf, hproto, hstate⟩

theorem key3_ne_of_samePPP_false {a b : PortInfo} (h : samePPP b a = false) :
    key3 a ≠ key3 b :=
  fun hk => not_tripleEq_of_samePPP_false h (key3_eq_iff.mp hk)

theorem linux_assemble_mem {env : LinuxEnv} {b : Bool} {sock : SocketEntry}
    {pid : Nat}
    (hs : sock ∈ linux_get_all_sockets env)
    (hf : linuxFilterSkip b sock = false)
    (hp : sock.local_port ≠ 0)
    (hm : build_inode_to_pid_map env sock.inode = some pid) :
    linux_record env (linux_boot_time env) env.clockTicks sock pid ∈
      linux_assemble env b := by
  apply List.mem_filterMap.mpr
  refine ⟨sock, hs, ?_⟩
  rw [if_neg (by simp [hf]), if_neg hp, hm]

-- ── Claim theorems ──────────────────────────────────────────────────

set_option maxRecDepth 100000

/-- C1 (counterexample): on Linux the sort key omits the pid, so triple
duplicates can be non-adjacent and both survive dedup.  With three port-80
TCP listeners owned by pids 17, 23, 17 (in inode order), the returned list
has two entries with the triple (80, TCP, 17). -/
theorem C1_counterexample :
    ¬ List.Pairwise (fun a b => ¬ tripleEq a b) (linux_get_port_infos c1CexEnv true) := by
  decide

/-- C1 (amended): in every list returned by get_port_infos no two ADJACENT
entries share the (port, protocol, pid) triple (Linux, macOS); on Windows,
whose sort key includes the pid, no two entries anywhere share the triple. -/
theorem C1_dedup_invariant :
    (∀ (env : LinuxEnv) (b : Bool),
      List.Chain' (fun x y => ¬ tripleEq x y) (linux_get_port_infos env b)) ∧
    (∀ (env : MacEnv) (b : Bool),
      List.Chain' (fun x y => ¬ tripleEq x y) (mac_get_port_infos env b)) ∧
    (∀ (env : WinEnv) (b : Bool),
      List.Pairwise (fun x y => ¬ tripleEq x y) (win_get_port_infos env b)) := by
  refine ⟨?_, ?_, ?_⟩
  · intro env b
    exact (dedupBy_chain' samePPP _).imp fun _ _ h => not_tripleEq_of_samePPP_false h
  · intro env b
    exact (dedupBy_chain' samePPP _).imp fun _ _ h => not_tripleEq_of_samePPP_false h
  · intro env b
    have hp : List.Pairwise r3 (win_get_port_infos env b) := pipeline_pairwise r3 _
    have hc : List.Chain' (fun a b => samePPP b a = false) (win_get_port_infos env b) :=
      dedupBy_chain' samePPP _
    have hp' : List.Pairwise (· ≤ ·) ((win_get_port_infos env b).map key3) :=
      (List.pairwise_map).mpr (hp.imp fun h => h)
    have hc' : List.Chain' (· ≠ ·) ((win_get_port_infos env b).map key3) :=
      (List.chain'_map key3).mpr (hc.imp fun _ _ h => key3_ne_of_samePPP_false h)
    have hnn := pairwise_ne_of_sorted_chain _ hp' hc'
    exact ((List.pairwise_map).mp hnn).imp fun h ht => h (key3_eq_iff.mpr ht)

/-- C4: every list returned by get_port_infos is non-decreasing in the
(port, protocol) key: consecutive entries have increasing ports, or equal
ports and lexicographically non-decreasing protocol strings. -/
theorem C4_order_invariant :
    (∀ (env : LinuxEnv) (b : Bool), List.Chain' keyLeC (linux_get_port_infos env b)) ∧
    (∀ (env : WinEnv) (b : Bool), List.Chain' keyLeC (win_get_port_infos env b)) ∧
    (∀ (env : MacEnv) (b : Bool), List.Chain' keyLeC (mac_get_port_infos env b)) := by
  refine ⟨?_, ?_, ?_⟩
  · intro env b
    exact ((pipeline_pairwise r2 _).imp fun h => r2_imp_keyLeC h).chain'
  · intro env b
    exact ((pipeline_pairwise r3 _).imp fun h => r3_imp_keyLeC h).chain'
  · intro env b
    exact ((pipeline_pairwise r2 _).imp fun h => r2_imp_keyLeC h).chain'

/-- C3: in every list returned by get_port_infos with the listening filter
on, every entry whose protocol is "TCP" has state Listen; and the filter
check never excludes a UDP-protocol socket, whatever its state. -/
theorem C3_filter_invariant :
    (∀ (env : LinuxEnv) (r : PortInfo), r ∈ linux_get_port_infos env true →
      r.protocol = "TCP" → r.state = TcpState.Listen) ∧
    (∀ (b : Bool) (s : SocketEntry), strStarts s.protocol "UDP" = true →
      linuxFilterSkip b s = false) ∧
    (∀ (env : WinEnv) (r : PortInfo), r ∈ win_get_port_infos env true →
      r.protocol = "TCP" → r.state = TcpState.Listen) ∧
    (∀ (b : Bool) (s : WinRawSocket), s.protocol = "UDP" →
      winFilterSkip b s = false) ∧
    (∀ (env : MacEnv) (r : PortInfo), r ∈ mac_get_port_infos env true →
      r.protocol = "TCP" → r.state = TcpState.Listen) ∧
    (∀ (b : Bool) (h : MacHit), h.protocol = "UDP" →
      macFilterSkip b h = false) := by
  refine ⟨?_, ?_, ?_, ?_, ?_, ?_⟩
  · intro env r hr hproto
    obtain ⟨sock', pid', hs', hf', hp', hm', heq⟩ :=
      linux_assemble_spec (mem_of_mem_pipeline hr)
    have hstate : r.state = sock'.state := by rw [heq]; rfl
    have hprot2 : r.protocol = (stripSuf '6' sock'.protocol).getD sock'.protocol := by
      rw [heq]; rfl
    rw [hstate]
    rcases linux_sockets_protocol hs' with h | h | h | h
    · have hud : strStarts sock'.protocol "UDP" = false := by rw [h]; decide
      rw [linuxFilterSkip, hud] at hf'
      simpa using hf'
    · have hud : strStarts sock'.protocol "UDP" = false := by rw [h]; decide
      rw [linuxFilterSkip, hud] at hf'
      simpa using hf'
    · rw [h] at hprot2
      exact absurd (hprot2.symm.trans hproto) (by decide)
    · rw [h] at hprot2
      exact absurd (hprot2.symm.trans hproto) (by decide)
  · intro b s h
    simp [linuxFilterSkip, h]
  · intro env r hr hproto
    obtain ⟨s, -, -, hf', hproto2, hstate⟩ := win_get_port_infos_spec hr
    rw [hproto2] at hproto
    rw [hstate]
    rw [winFilterSkip, hproto] at hf'
    simpa using hf'
  · intro b s h
    simp [winFilterSkip, h]
  · intro env r hr hproto
    obtain ⟨pid, hh, -, -, hf', hproto2, hstate⟩ := mac_get_port_infos_spec hr
    rw [hproto2] at hproto
    rw [hstate]
    rw [macFilterSkip, hproto] at hf'
    simpa using hf'
  · intro b h hp
    simp [macFilterSkip, hp]

/-- C3 witness: the filter invariant applied to concrete Linux, Windows and
macOS snapshots and to concrete non-Listen UDP sockets. -/
theorem C3_filter_invariant_witness :
    c3LinRec.state = TcpState.Listen ∧ linuxFilterSkip true udpSockEx = false ∧
    c3WinRec.state = TcpState.Listen ∧ winFilterSkip true udpWinSockEx = false ∧
    c3MacRec.state = TcpState.Listen ∧ macFilterSkip true udpMacHitEx = false :=
  ⟨C3_filter_invariant.1 c3LinEnv c3LinRec (by decide) (by decide),
   C3_filter_invariant.2.1 true udpSockEx (by decide),
   C3_filter_invariant.2.2.1 c3WinEnv c3WinRec (by decide) (by decide),
   C3_filter_invariant.2.2.2.1 true udpWinSockEx (by decide),
   C3_filter_invariant.2.2.2.2.1 c3MacEnv c3MacRec
     (by rw [show mac_get_port_infos c3MacEnv true = [c3MacRec] from rfl]
         exact List.mem_singleton_self c3MacRec) (by decide),
   C3_filter_invariant.2.2.2.2.2 true udpMacHitEx (by decide)⟩

/-- C2 (counterexample): a snapshot with one TCP listener whose owning
process's details are inaccessible (its fd links cannot be read, so its
inode is never mapped): the socket's record is dropped entirely, with
either filter value, instead of being emitted with blank fields. -/
theorem C2_counterexample :
    c2DropEnv.fdLinks 42 = none ∧ c2DropEnv.comm 42 = none ∧
    (linux_get_all_sockets c2DropEnv).length = 1 ∧
    linux_get_port_infos c2DropEnv true = [] ∧
    linux_get_port_infos c2DropEnv false = [] := by
  refine ⟨rfl, rfl, by decide, by decide, by decide⟩

/-- C2 (amended): on Linux, when a socket's inode was resolved to a pid by
the fd-link scan but every per-pid detail file (comm, cmdline, status, stat,
children) is unreadable, get_port_infos still emits a record carrying the
socket's port, protocol and pid with blank/default detail fields; but when
the fd links themselves cannot be read, the inode is unmapped and the
socket's record is dropped (see the counterexample). -/
theorem C2_partial_details_record {env : LinuxEnv} {b : Bool}
    {sock : SocketEntry} {pid : Nat}
    (hs : sock ∈ linux_get_all_sockets env)
    (hm : build_inode_to_pid_map env sock.inode = some pid)
    (hf : linuxFilterSkip b sock = false)
    (hp : sock.local_port ≠ 0)
    (hcomm : env.comm pid = none) (hcmd : env.cmdline pid = none)
    (hstatus : env.status pid = none) (hstat : env.statFile pid = none)
    (hchild : env.childrenFile pid = none) :
    ∃ r ∈ linux_get_port_infos env b,
      r.port = sock.local_port ∧
      r.protocol = (stripSuf '6' sock.protocol).getD sock.protocol ∧
      r.pid = pid ∧ r.process_name = "" ∧ r.command = "[]" ∧
      r.user = env.username 0 ∧ r.memory_bytes = 0 ∧ r.cpu_seconds = 0 ∧
      r.start_time = none ∧ r.children = 0 := by
  have hassem := linux_assemble_mem hs hf hp hm
  obtain ⟨y, hy, hrel⟩ := @mem_pipeline_witness samePPP r2 _ _ _ hassem
  obtain ⟨sock', pid', hs', hf', hp', hm', heq⟩ :=
    linux_assemble_spec (mem_of_mem_pipeline hy)
  have hname : linux_process_name env pid = "" := by
    rw [linux_process_name, hcomm]
    decide
  have hcmdl : linux_process_cmdline env pid = "[]" := by
    rw [linux_process_cmdline, hcmd, linux_process_name, hcomm]
    decide
  have hst : linux_parse_proc_status env pid = (0, 0) := by
    rw [linux_parse_proc_status, hstatus]
    decide
  have hts : linux_parse_proc_stat env pid (linux_boot_time env) env.clockTicks
      = (none, 0) := by
    rw [linux_parse_proc_stat, hstat]
  have hch : linux_count_children env pid = 0 := by
    rw [linux_count_children, hchild]
    decide
  have htriple :
      tripleEq (linux_record env (linux_boot_time env) env.clockTicks sock pid) y := by
    rcases hrel with hppp | rfl
    · exact samePPP_iff.mp hppp
    · exact ⟨rfl, rfl, rfl⟩
  subst heq
  have hpid : pid' = pid := htriple.2.2.symm
  rw [← hpid] at hname hcmdl hst hts hch
  refine ⟨_, hy, htriple.1.symm, htriple.2.1.symm, hpid, ?_, ?_, ?_, ?_, ?_, ?_, ?_⟩
  · exact hname
  · exact hcmdl
  · show env.username (linux_parse_proc_status env pid').1 = env.username 0
    rw [hst]
  · show (linux_parse_proc_status env pid').2 = 0
    rw [hst]
  · show (linux_parse_proc_stat env pid' (linux_boot_time env) env.clockTicks).2 = 0
    rw [hts]
  · show (linux_parse_proc_stat env pid' (linux_boot_time env) env.clockTicks).1 = none
    rw [hts]
  · exact hch

/-- C2 witness: the amended statement applied to a concrete snapshot whose
fd links are readable and whose detail files are all unreadable. -/
theorem C2_partial_details_record_witness :
    ∃ r ∈ linux_get_port_infos c2KeepEnv true,
      r.port = c2Sock.local_port ∧
      r.protocol = (stripSuf '6' c2Sock.protocol).getD c2Sock.protocol ∧
      r.pid = 42 ∧ r.process_name = "" ∧ r.command = "[]" ∧
      r.user = c2KeepEnv.username 0 ∧ r.memory_bytes = 0 ∧ r.cpu_seconds = 0 ∧
      r.start_time = none ∧ r.children = 0 :=
  C2_partial_details_record (by decide) (by decide) (by decide) (by decide)
    rfl rfl rfl rfl rfl

theorem bswap32_div_mod (n : Nat) (hn : n < 4294967296) :
    bswap32 n / 16777216 % 256 = n % 256 ∧
    bswap32 n / 65536 % 256 = n / 256 % 256 ∧
    bswap32 n / 256 % 256 = n / 65536 % 256 ∧
    bswap32 n % 256 = n / 16777216 % 256 := by
  obtain ⟨a0, a1, a2, a3, h0, h1, h2, h3, hdec⟩ :
      ∃ a0 a1 a2 a3, a0 < 256 ∧ a1 < 256 ∧ a2 < 256 ∧ a3 < 256 ∧
        n = a0 + 256 * a1 + 65536 * a2 + 16777216 * a3 :=
    ⟨n % 256, n / 256 % 256, n / 65536 % 256, n / 16777216,
      by omega, by omega, by omega, by omega, by omega⟩
  subst hdec
  have e0 : (a0 + 256 * a1 + 65536 * a2 + 16777216 * a3) % 256 = a0 := by omega
  have e1 : (a0 + 256 * a1 + 65536 * a2 + 16777216 * a3) / 256 % 256 = a1 := by omega
  have e2 : (a0 + 256 * a1 + 65536 * a2 + 16777216 * a3) / 65536 % 256 = a2 := by
    omega
  have e3 : (a0 + 256 * a1 + 65536 * a2 + 16777216 * a3) / 16777216 % 256 = a3 := by
    omega
  unfold bswap32
  rw [e0, e1, e2, e3]
  clear e0 e1 e2 e3 hn
  exact ⟨by omega, by omega, by omega, by omega⟩

theorem parseCore_le {radix bound : Nat} {cs : List Char} {n : Nat}
    (h : parseCore radix bound cs = some n) : n ≤ bound := by
  unfold parseCore at h
  split at h
  · exact Option.noConfusion h
  · obtain ⟨m, -, hif⟩ := Option.bind_eq_some.mp h
    split at hif
    · next hle =>
      injection hif with h'
      omega
    · exact Option.noConfusion hif

theorem parseUInt?_le {radix bound : Nat} {s : String} {n : Nat}
    (h : parseUInt? radix bound s = some n) : n ≤ bound := by
  unfold parseUInt? at h
  split at h
  · exact Option.noConfusion h
  · split at h
    · exact parseCore_le h
    · split at h
      · obtain ⟨m, -, hif⟩ := Option.bind_eq_some.mp h
        split at hif
        · injection hif with h'
          omega
        · exact Option.noConfusion hif
      · exact parseCore_le h

/-- C5: for every 32-hex-digit string, the IPv6 decoder yields 16 octets in
which position 4g+j carries byte 3-j of the big-endian representation of
the g-th parsed group word: a per-group byte-order swap. -/
theorem C5_v6_group_byte_swap (hex : String) (h32 : hex.data.length = 32)
    (hhex : ∀ c ∈ hex.data, (hexDigit? 16 c).isSome = true) :
    ∃ o, parse_hex_addr_v6 hex = IpAddr.v6 o ∧ o.length = 16 ∧
      ∀ g < 4, ∀ j < 4,
        o.getD (4 * g + j) 0 = (u32BeBytes (v6GroupWord hex g)).getD (3 - j) 0 := by
  refine ⟨((List.range 4).map fun g => (u32BeBytes (v6GroupWord hex g)).reverse).flatten,
    ?_, ?_, ?_⟩
  · rw [parse_hex_addr_v6, if_neg (by omega)]
  · rfl
  · intro g hg j hj
    interval_cases g <;> interval_cases j <;> rfl

/-- C5 witness: the decoder applied to the hex form of the loopback
address ::1 as it appears in /proc/net/tcp6. -/
theorem C5_v6_group_byte_swap_witness :
    ∃ o, parse_hex_addr_v6 "00000000000000000000000001000000" = IpAddr.v6 o ∧
      o.length = 16 ∧ ∀ g < 4, ∀ j < 4,
        o.getD (4 * g + j) 0 =
          (u32BeBytes (v6GroupWord "00000000000000000000000001000000" g)).getD (3 - j) 0 :=
  C5_v6_group_byte_swap "00000000000000000000000001000000" (by decide) (by decide)

/-- C6: for every 8-hex-digit string, the IPv4 decoder returns the address
whose octets are the parsed 32-bit value's bytes in little-endian order,
i.e. the stored big-endian hex encoding read back as the four octets. -/
theorem C6_v4_byte_order (hex : String) (h8 : hex.data.length = 8)
    (hhex : ∀ c ∈ hex.data, (hexDigit? 16 c).isSome = true) :
    parse_hex_addr_v4 hex =
      IpAddr.v4 ((parseUInt? 16 u32max hex).getD 0 % 256)
        ((parseUInt? 16 u32max hex).getD 0 / 256 % 256)
        ((parseUInt? 16 u32max hex).getD 0 / 65536 % 256)
        ((parseUInt? 16 u32max hex).getD 0 / 16777216 % 256) := by
  have hn : (parseUInt? 16 u32max hex).getD 0 ≤ 4294967295 := by
    cases hp : parseUInt? 16 u32max hex with
    | none => simp
    | some m => simpa [u32max] using parseUInt?_le hp
  simp only [parse_hex_addr_v4, IpAddr.v4.injEq]
  have h := bswap32_div_mod ((parseUInt? 16 u32max hex).getD 0) (by omega)
  exact ⟨h.1, h.2.1, h.2.2.1, h.2.2.2⟩

/-- C6 witness: hex 0100007F decodes to 127.0.0.1. -/
theorem C6_v4_byte_order_witness : parse_hex_addr_v4 "0100007F" = IpAddr.v4 127 0 0 1 := by
  rw [C6_v4_byte_order "0100007F" (by decide) (by decide)]
  decide

/-- C7: the FILETIME conversion maps the Unix-epoch offset tick count to
exactly the Unix epoch, and offset + 10,000,000 ticks to exactly one second
after it, for the corresponding 32-bit low/high halves. -/
theorem C7_filetime_epoch :
    filetime_to_system_time (FILETIME_UNIX_OFFSET % 4294967296)
        (FILETIME_UNIX_OFFSET / 4294967296) = some (0, 0) ∧
    filetime_to_system_time ((FILETIME_UNIX_OFFSET + 10000000) % 4294967296)
        ((FILETIME_UNIX_OFFSET + 10000000) / 4294967296) = some (1, 0) := by
  exact ⟨by decide, by decide⟩

/-- C10: any FILETIME whose 64-bit tick count is below the Unix-epoch
offset converts to None; the subtraction is never reached, so a pre-epoch
creation time cannot underflow. -/
theorem C10_pre_epoch_none (lo hi : Nat) (hlo : lo < 4294967296)
    (hhi : hi < 4294967296)
    (h : filetime_to_u64 lo hi < FILETIME_UNIX_OFFSET) :
    filetime_to_system_time lo hi = none := by
  simp only [filetime_to_system_time]
  rw [if_pos h]

/-- C10 witness: one tick after the 1601 epoch converts to None. -/
theorem C10_pre_epoch_none_witness : filetime_to_system_time 1 0 = none :=
  C10_pre_epoch_none 1 0 (by decide) (by decide) (by decide)

theorem splitCh_ne_nil (c : Char) (l : List Char) : splitCh c l ≠ [] := by
  cases l with
  | nil => simp [splitCh]
  | cons x xs =>
    rw [splitCh]
    by_cases h : x = c
    · simp [h]
    · rw [if_neg h]
      cases hs : splitCh c xs <;> simp

theorem splitCh_no_sep (c : Char) (l : List Char) (h : c ∉ l) : splitCh c l = [l] := by
  induction l with
  | nil => rfl
  | cons x xs ih =>
    simp only [List.mem_cons, not_or] at h
    rw [splitCh, if_neg (fun he => h.1 he.symm), ih h.2]

theorem splitCh_append_no_sep (c : Char) (xs ys : List Char) (h : c ∉ xs) :
    splitCh c (xs ++ c :: ys) = xs :: splitCh c ys := by
  induction xs with
  | nil => rw [List.nil_append, splitCh, if_pos rfl]
  | cons x xs ih =>
    simp only [List.mem_cons, not_or] at h
    rw [List.cons_append, splitCh, if_neg (fun he => h.1 he.symm),
      ih h.2]

theorem splitCh_append_length (c : Char) (xs ys : List Char) :
    2 ≤ (splitCh c (xs ++ c :: ys)).length := by
  induction xs with
  | nil =>
    rw [List.nil_append, splitCh, if_pos rfl]
    have := splitCh_ne_nil c ys
    cases hs : splitCh c ys with
    | nil => exact absurd hs this
    | cons a t => simp
  | cons x xs ih =>
    rw [List.cons_append, splitCh]
    by_cases hx : x = c
    · rw [if_pos hx]
      have := splitCh_ne_nil c (xs ++ c :: ys)
      cases hs : splitCh c (xs ++ c :: ys) with
      | nil => exact absurd hs this
      | cons a t => simp
    · rw [if_neg hx]
      cases hs : splitCh c (xs ++ c :: ys) with
      | nil => exact absurd hs (splitCh_ne_nil _ _)
      | cons a t =>
        rw [hs] at ih
        simpa using ih

theorem getLast?_splitCh_append (c : Char) (xs ys : List Char) :
    (splitCh c (xs ++ c :: ys)).getLast? = (splitCh c ys).getLast? := by
  induction xs with
  | nil =>
    rw [List.nil_append, splitCh, if_pos rfl]
    cases hs : splitCh c ys with
    | nil => exact absurd hs (splitCh_ne_nil c ys)
    | cons a t => rw [List.getLast?_cons_cons]
  | cons x xs ih =>
    rw [List.cons_append, splitCh]
    by_cases hx : x = c
    · rw [if_pos hx]
      cases hs : splitCh c (xs ++ c :: ys) with
      | nil => exact absurd hs (splitCh_ne_nil _ _)
      | cons a t =>
        rw [List.getLast?_cons_cons, ← hs, ih]
    · rw [if_neg hx]
      cases hs : splitCh c (xs ++ c :: ys) with
      | nil => exact absurd hs (splitCh_ne_nil _ _)
      | cons a t =>
        cases t with
        | nil =>
          have h2 := splitCh_append_length c xs ys
          rw [hs] at h2
          simp at h2
        | cons b t' =>
          rw [List.getLast?_cons_cons, ← List.getLast?_cons_cons (a := a)]
          rw [← hs, ih]

theorem string_data_append3 (p q r : String) :
    (p ++ q ++ r).data = p.data ++ (q.data ++ r.data) := by
  simp [List.append_assoc]

/-- C8: parsing "0.0.0.0:49153-49155->8080-8082/tcp" gives host port 49153
and container port 8080, protocol "TCP"; in general, on a hyphen range the
first port is taken (parse_first_port ignores everything after the first
hyphen), on both the host side (text after the last colon) and the
container side. -/
theorem C8_port_range_first :
    parse_port_segment "0.0.0.0:49153-49155->8080-8082/tcp" =
      some (49153, 8080, "TCP") ∧
    (∀ p rest : String, '-' ∉ p.data →
      parse_first_port (p ++ "-" ++ rest) = parse_first_port p) ∧
    (∀ h r : String, ':' ∉ r.data →
      parse_host_port (h ++ ":" ++ r) = parse_first_port (rustTrim r)) := by
  refine ⟨by decide, ?_, ?_⟩
  · intro p rest hnp
    rw [parse_first_port, parse_first_port]
    have hdata : (p ++ "-" ++ rest).data = p.data ++ '-' :: rest.data := by
      rw [string_data_append3]
      rfl
    rw [hdata, splitCh_append_no_sep '-' p.data rest.data hnp,
      splitCh_no_sep '-' p.data hnp]
    rfl
  · intro h r hnr
    rw [parse_host_port, lastSegAfter]
    have hdata : (h ++ ":" ++ r).data = h.data ++ ':' :: r.data := by
      rw [string_data_append3]
      rfl
    rw [hdata, getLast?_splitCh_append, splitCh_no_sep ':' r.data hnr]
    rfl

/-- C8 witness: the range lemmas applied to the 49153-49155 host range and
the segment parts of the concrete example. -/
theorem C8_port_range_first_witness :
    parse_first_port ("49153" ++ "-" ++ "49155") = parse_first_port "49153" ∧
    parse_host_port ("0.0.0.0" ++ ":" ++ "49153-49155") =
      parse_first_port (rustTrim "49153-49155") :=
  ⟨C8_port_range_first.2.1 "49153" "49155" (by decide),
   C8_port_range_first.2.2 "0.0.0.0" "49153-49155" (by decide)⟩

/-- C9: kill_process refuses pid 0 (and, on Unix, pids above i32::MAX)
with an error before issuing any native call, and on success reports the
signal used (SIGKILL when forced, SIGTERM otherwise) or, on Windows,
"TerminateProcess". -/
theorem C9_kill_guards :
    (∀ (env : UnixKillEnv) (pid : Nat) (force : Bool), pid = 0 ∨ pid > i32max →
      (kill_process_unix env pid force).2 = [] ∧
      ∃ e, (kill_process_unix env pid force).1 = .error e) ∧
    (∀ (env : UnixKillEnv) (pid : Nat) (force : Bool) (d : String),
      (kill_process_unix env pid force).1 = .ok d →
      d = if force then "SIGKILL" else "SIGTERM") ∧
    (∀ (env : WinTermEnv) (force : Bool),
      (kill_process_win env 0 force).2 = [] ∧
      ∃ e, (kill_process_win env 0 force).1 = .error e) ∧
    (∀ (env : WinTermEnv) (pid : Nat) (force : Bool) (d : String),
      (kill_process_win env pid force).1 = .ok d → d = "TerminateProcess") := by
  refine ⟨?_, ?_, ?_, ?_⟩
  · rintro env pid force (rfl | hgt)
    · exact ⟨rfl, _, rfl⟩
    · rw [kill_process_unix, if_neg (by omega), if_pos hgt]
      exact ⟨rfl, _, rfl⟩
  · intro env pid force d h
    simp only [kill_process_unix] at h
    split at h
    · exact absurd h (by simp)
    · split at h
      · exact absurd h (by simp)
      · dsimp only at h
        repeat' split at h
        all_goals first
          | (injection h with h'
             rw [← h']
             simp [*])
          | exact absurd h (by simp)
  · intro env force
    exact ⟨rfl, _, rfl⟩
  · intro env pid force d h
    simp only [kill_process_win] at h
    split at h
    · exact absurd h (by simp)
    · split at h
      · exact absurd h (by simp)
      · dsimp only at h
        repeat' split at h
        all_goals first
          | (injection h with h'
             rw [← h'])
          | exact absurd h (by simp)

/-- C9 witness: the guards and success descriptions at concrete inputs:
pid 0 is refused on both platforms with no native call, a successful
non-forced Unix kill reports SIGTERM, a successful Windows termination
reports TerminateProcess. -/
theorem C9_kill_guards_witness :
    ((kill_process_unix ukEnv 0 true).2 = [] ∧
      ∃ e, (kill_process_unix ukEnv 0 true).1 = .error e) ∧
    ("SIGTERM" = if false then "SIGKILL" else "SIGTERM") ∧
    ((kill_process_win wtEnv 0 true).2 = [] ∧
      ∃ e, (kill_process_win wtEnv 0 true).1 = .error e) ∧
    "TerminateProcess" = "TerminateProcess" :=
  ⟨C9_kill_guards.1 ukEnv 0 true (Or.inl rfl),
   C9_kill_guards.2.1 ukEnv 5 false "SIGTERM" rfl,
   C9_kill_guards.2.2.1 wtEnv true,
   C9_kill_guards.2.2.2 wtEnv 5 false "TerminateProcess" rfl⟩
